import Mathlib

/-!
Shallow embedding of the layer-decomposition / PSD-assembly pipeline:
`src/types.ts`, `src/services/psdService.ts` and `src/services/geminiService.ts`.

JavaScript numbers are modelled as rationals (`ℚ`), `Math.round` as
round-half-up on rationals, pixel buffers as lists of RGBA quadruples,
and the browser image-decoding environment (`fetch` / `createImageBitmap` /
`OffscreenCanvas.getImageData`) as an oracle `String → Option DecodedImage`
(`none` models a decode failure, i.e. a rejected promise).
-/

/-- LayerType from `src/types.ts`: the closed enumeration of layer categories. -/
inductive LayerType where
  | image
  | shape
  | text
deriving DecidableEq

/-- The string value a `LayerType` denotes in the source (the TS type is a
union of string literals). -/
def typeString : LayerType → String
  | LayerType.image => "image"
  | LayerType.shape => "shape"
  | LayerType.text => "text"

/-- BoundingBox from `src/types.ts`: normalized coordinates. -/
structure BoundingBox where
  x : ℚ
  y : ℚ
  width : ℚ
  height : ℚ
deriving DecidableEq

/-- Layer from `src/types.ts`, together with the `extractedImage` cache field
read by `exportToPsd` (`layer.extractedImage`, a base64 string when present). -/
structure Layer where
  name : String
  description : String
  type : LayerType
  boundingBox : BoundingBox
  extractedImage : Option String
deriving DecidableEq

/-- JavaScript truthiness of the optional `extractedImage` string field:
`undefined` and the empty string are falsy. -/
def isCached : Option String → Bool
  | none => false
  | some s => decide (s ≠ "")

/-- One RGBA pixel of a decoded or synthesized image buffer. -/
structure RGBA where
  r : ℕ
  g : ℕ
  b : ℕ
  a : ℕ
deriving DecidableEq

/-- A fully transparent pixel, as left by `ctx.clearRect`. -/
def clearPixel : RGBA := ⟨0, 0, 0, 0⟩

/-- Result of decoding an image source: intrinsic width, height and pixel
buffer (`loadImageData` in `src/services/psdService.ts`). -/
structure DecodedImage where
  width : ℕ
  height : ℕ
  data : List RGBA
deriving DecidableEq

/-- `typeToRgba` from `src/services/psdService.ts`: the fixed guide palette
(green-400, yellow-400, red-400, each at alpha 100). -/
def typeToRgba : LayerType → RGBA
  | LayerType.image => ⟨74, 222, 128, 100⟩
  | LayerType.shape => ⟨250, 204, 21, 100⟩
  | LayerType.text => ⟨248, 113, 113, 100⟩

/-- JavaScript `Math.round`: round half toward positive infinity. -/
def jsRound (q : ℚ) : ℤ := ⌊q + 1 / 2⌋

/-- `loadImageDataFromBase64` from `src/services/psdService.ts`: prefixes the
base64 payload with a PNG data-URL header and decodes it through the same
image-loading path as any other URL. -/
def loadImageDataFromBase64 (decode : String → Option DecodedImage) (base64 : String) :
    Option DecodedImage :=
  decode ("data:image/png;base64," ++ base64)

/-- A document layer as pushed onto `psdLayers` in `exportToPsd` (the ag-psd
`Layer` record actually serialized): name, pixel data, absolute integer
bounds, and an optional opacity (absent means the format default). -/
structure PsdLayer where
  name : String
  imageData : List RGBA
  left : ℤ
  top : ℤ
  right : ℤ
  bottom : ℤ
  opacity : Option ℚ
deriving DecidableEq

/-- Effective opacity of a serialized layer: ag-psd treats an absent
`opacity` field as fully opaque (1). -/
def effOpacity : Option ℚ → ℚ
  | none => 1
  | some q => q

/-- The document record handed to `writePsd`: canvas dimensions plus the
ordered (foreground-first) children list. Byte-level serialization is the
external ag-psd library and is not modelled. -/
structure PsdDoc where
  width : ℕ
  height : ℕ
  children : List PsdLayer
deriving DecidableEq

/-- `writePsd` call site in `exportToPsd`: packages dimensions and children. -/
def writePsd (width height : ℕ) (children : List PsdLayer) : PsdDoc :=
  ⟨width, height, children⟩

/-- Whether canvas pixel (px, py) lies inside the filled rectangle of
`ctx.fillRect(rx, ry, rw, rh)` (nothing is filled when rw or rh is not
positive). -/
def inRect (rx ry rw rh px py : ℤ) : Bool :=
  decide (rx ≤ px) && decide (px < rx + rw) && decide (ry ≤ py) && decide (py < ry + rh)

/-- The pixel the guide-drawing pass leaves at canvas coordinate (px, py):
the category color inside the absolute-coordinate rectangle of the
bounding box, transparent (cleared) elsewhere. Mirrors the
`clearRect` / `fillRect` / `getImageData` sequence of `exportToPsd`. -/
def guidePixel (t : LayerType) (bb : BoundingBox) (w h : ℕ) (px py : ℕ) : RGBA :=
  if inRect (jsRound (bb.x * w)) (jsRound (bb.y * h))
      (jsRound (bb.width * w)) (jsRound (bb.height * h)) px py
  then typeToRgba t else clearPixel

/-- The full-canvas pixel buffer `ctx.getImageData(0, 0, width, height).data`
read back after drawing one guide rectangle: row-major, h rows of w pixels. -/
def guideImageData (t : LayerType) (bb : BoundingBox) (w h : ℕ) : List RGBA :=
  ((List.range h).map (fun py => (List.range w).map (fun px => guidePixel t bb w h px py))).flatten

/-- The value of `layer.type.toUpperCase()` in the source, per category
(upper-casing applied to the three enumeration strings). -/
def upperTypeString : LayerType → String
  | LayerType.image => "IMAGE"
  | LayerType.shape => "SHAPE"
  | LayerType.text => "TEXT"

/-- The guide document layer pushed by the fallback branch of `exportToPsd`:
full canvas, upper-cased category tag prefix, opacity 0.7. -/
def guideLayer (w h : ℕ) (l : Layer) : PsdLayer :=
  { name := "[" ++ upperTypeString l.type ++ "] " ++ l.name
    imageData := guideImageData l.type l.boundingBox w h
    left := 0
    top := 0
    right := (w : ℤ)
    bottom := (h : ℤ)
    opacity := some (7 / 10) }

/-- The document layer pushed for an `image` layer with a decoded cached
extraction: placed at the rounded absolute bounding-box origin, sized to the
extraction buffer's own intrinsic dimensions, no opacity field. -/
def extractedLayerOf (l : Layer) (ext : DecodedImage) (w h : ℕ) : PsdLayer :=
  { name := "[Extracted] " ++ l.name
    imageData := ext.data
    left := jsRound (l.boundingBox.x * w)
    top := jsRound (l.boundingBox.y * h)
    right := jsRound (l.boundingBox.x * w) + (ext.width : ℤ)
    bottom := jsRound (l.boundingBox.y * h) + (ext.height : ℤ)
    opacity := none }

/-- The per-layer body of the `for` loop in `exportToPsd`: an `image` layer
with a truthy `extractedImage` decodes its cached buffer (a decode failure
rejects, modelled as `none`); every other layer gets a guide layer. -/
def processLayer (decode : String → Option DecodedImage) (w h : ℕ) (l : Layer) :
    Option PsdLayer :=
  match l.type, l.extractedImage with
  | LayerType.image, some b64 =>
    if b64 = "" then some (guideLayer w h l)
    else
      match loadImageDataFromBase64 decode b64 with
      | none => none
      | some ext => some (extractedLayerOf l ext w h)
  | _, _ => some (guideLayer w h l)

/-- The loop of `exportToPsd` over the input layers, in order: results are
appended in input order; the first rejected decode aborts the whole export. -/
def processAll (f : Layer → Option PsdLayer) : List Layer → Option (List PsdLayer)
  | [] => some []
  | l :: rest =>
    match f l, processAll f rest with
    | some p, some ps => some (p :: ps)
    | _, _ => none

/-- The bottom-most document layer built from the decoded original image:
full canvas at (0,0), no opacity field. -/
def originalLayer (base : DecodedImage) : PsdLayer :=
  { name := "Original Image"
    imageData := base.data
    left := 0
    top := 0
    right := (base.width : ℤ)
    bottom := (base.height : ℤ)
    opacity := none }

/-- `exportToPsd` from `src/services/psdService.ts`: decode the original
image, build the original layer plus one output layer per input layer in
order, reverse the list (the document format stores the foreground-most
layer first), and hand it to `writePsd`. `none` models a rejected export. -/
def exportToPsd (decode : String → Option DecodedImage) (imageUrl : String)
    (layers : List Layer) : Option PsdDoc :=
  match decode imageUrl with
  | none => none
  | some base =>
    match processAll (processLayer decode base.width base.height) layers with
    | none => none
    | some outs =>
      some (writePsd base.width base.height (List.reverse (originalLayer base :: outs)))

/-!
Model of `src/services/geminiService.ts`. The remote model call is an
oracle; both exported functions wrap their whole body in a try/catch whose
handler rethrows one fixed generic error, so every internal failure
(empty response text, JSON parse error, schema violation, missing image
part, TypeError on a null element) surfaces to the caller as the same
error value as a failed remote call.
-/

/-- A parsed JSON value, as produced by `JSON.parse`. -/
inductive Json where
  | null
  | bool (b : Bool)
  | num (q : ℚ)
  | str (s : String)
  | arr (elems : List Json)
  | obj (fields : List (String × Json))

/-- Property lookup on a list of JSON object fields. -/
def lookupField : List (String × Json) → String → Option Json
  | [], _ => none
  | (k2, v) :: rest, k => if k2 = k then some v else lookupField rest k

/-- JavaScript property access `item.k` on a parsed JSON value that is not
null: yields `none` (undefined) on non-objects and on missing keys. -/
def getField (j : Json) (k : String) : Option Json :=
  match j with
  | Json.obj fields => lookupField fields k
  | _ => none

/-- JavaScript truthiness of a JSON value. -/
def truthy : Json → Bool
  | Json.null => false
  | Json.bool b => b
  | Json.num q => decide (q ≠ 0)
  | Json.str s => decide (s ≠ "")
  | Json.arr _ => true
  | Json.obj _ => true

/-- Truthiness of `item.k` (a missing property is undefined, hence falsy). -/
def fieldTruthy (j : Json) (k : String) : Bool :=
  match getField j k with
  | none => false
  | some v => truthy v

/-- Whether an array element would pass the validation predicate of
`analyzeImageForLayers`: non-null, with all four required fields truthy. -/
def itemHasRequired (it : Json) : Bool :=
  match it with
  | Json.null => false
  | _ =>
    fieldTruthy it "name" && fieldTruthy it "description" &&
      fieldTruthy it "type" && fieldTruthy it "boundingBox"

/-- The predicate of the `parsedJson.some(item => !item.name ||
!item.description || !item.type || !item.boundingBox)` scan. -/
def itemMissingRequired (it : Json) : Bool :=
  !fieldTruthy it "name" || !fieldTruthy it "description" ||
    !fieldTruthy it "type" || !fieldTruthy it "boundingBox"

/-- The `parsedJson.some(...)` scan itself: early exit on the first invalid
element; accessing `.name` on a null element throws a TypeError, modelled
as `Except.error ()`. -/
def checkItems : List Json → Except Unit Bool
  | [] => Except.ok false
  | item :: rest =>
    match item with
    | Json.null => Except.error ()
    | _ =>
      if itemMissingRequired item
      then Except.ok true
      else checkItems rest

/-- Outcome of the `ai.models.generateContent` call in
`analyzeImageForLayers`: the call rejects, or resolves with a response whose
`text` field may be absent. -/
inductive AnalyzeCall where
  | failed
  | ok (text : Option String)

/-- The single error value `analyzeImageForLayers` ever throws to its
caller: the catch-all handler rethrows this fixed message for every
failure path. -/
def genericAnalyzeError : String := "Failed to communicate with the AI model."

/-- The validation step of `analyzeImageForLayers` on an array response:
if the `.some(...)` scan reports no invalid element the parsed elements are
returned unchanged (the source merely casts `parsedJson as Layer[]`);
otherwise the inner throw is caught and rethrown as the generic error. -/
def analyzeValidate (items : List Json) : Except String (List Json) :=
  match checkItems items with
  | Except.ok false => Except.ok items
  | _ => Except.error genericAnalyzeError

/-- The `Array.isArray` gate of `analyzeImageForLayers`: a non-array parse
result throws, caught and rethrown as the generic error. -/
def analyzeParsed : Json → Except String (List Json)
  | Json.arr items => analyzeValidate items
  | _ => Except.error genericAnalyzeError

/-- `analyzeImageForLayers` from `src/services/geminiService.ts`, modelled
from the response text onward (`parse` is the `JSON.parse` oracle, `none`
meaning a parse exception). All throws inside the try block are caught and
rethrown as `genericAnalyzeError`. -/
def analyzeImageForLayers (parse : String → Option Json) (call : AnalyzeCall) :
    Except String (List Json) :=
  match call with
  | AnalyzeCall.failed => Except.error genericAnalyzeError
  | AnalyzeCall.ok none => Except.error genericAnalyzeError
  | AnalyzeCall.ok (some txt) =>
    if txt = "" then Except.error genericAnalyzeError
    else
      match parse txt with
      | none => Except.error genericAnalyzeError
      | some j => analyzeParsed j

/-- The `inlineData` payload of a response part. -/
structure InlineData where
  mimeType : String
  data : String
deriving DecidableEq

/-- One part of a model response candidate: plain text or inline binary
image data. -/
structure RespPart where
  text : Option String
  inlineData : Option InlineData
deriving DecidableEq

/-- The `content` record of a response candidate. -/
structure Content where
  parts : List RespPart
deriving DecidableEq

/-- One candidate of the extraction model response. -/
structure Candidate where
  content : Content
deriving DecidableEq

/-- The request `extractImageLayer` sends: fixed model id, source image,
MIME type, and the prompt built from the target layer. -/
structure ExtractRequest where
  model : String
  image : String
  mimeType : String
  prompt : String
deriving DecidableEq

/-- `JSON.stringify(layer.boundingBox)` as interpolated into the extraction
prompt (rationals are printed with the ambient rational notation). -/
def bbJson (bb : BoundingBox) : String :=
  "\x7b\"x\":" ++ toString bb.x ++ ",\"y\":" ++ toString bb.y ++
    ",\"width\":" ++ toString bb.width ++ ",\"height\":" ++ toString bb.height ++ "\x7d"

/-- The extraction prompt (quotation punctuation normalized): it depends on
exactly the target layer's bounding box and description. -/
def extractPromptText (bb : BoundingBox) (desc : String) : String :=
  "You are an image editing expert. Your task is to perform a precise cutout. From the provided main image, extract the object located within this bounding box: "
    ++ bbJson bb
    ++ ". The object is described as: " ++ desc
    ++ ". Your output MUST be ONLY the extracted object on a transparent background, cropped to its content. Do not include any other text or content in your response. Return a PNG image."

/-- Outcome of the `generateContent` call in `extractImageLayer`. -/
inductive ExtractCall (α : Type) where
  | failed
  | ok (v : α)

/-- The single error value `extractImageLayer` ever throws to its caller. -/
def genericExtractError : String := "Failed to extract image layer with the AI model."

/-- The `for (const part of response.candidates[0].content.parts)` scan:
return the `data` of the first part whose `inlineData` is present. -/
def findInline : List RespPart → Option String
  | [] => none
  | p :: rest =>
    match p.inlineData with
    | some d => some d.data
    | none => findInline rest

/-- `extractImageLayer` from `src/services/geminiService.ts`: builds one
request from the source image, MIME type and the target layer's bounding
box and description, issues it once, and scans the first candidate's parts
for inline image data. Besides the result it records the list of remote
requests issued (always exactly the one). Every failure (rejected call,
no candidate, no inline part) is caught and rethrown as
`genericExtractError`. -/
def extractImageLayer (remote : ExtractRequest → ExtractCall (List Candidate))
    (base64Image mimeType : String) (layer : Layer) :
    Except String String × List ExtractRequest :=
  let req : ExtractRequest :=
    { model := "gemini-2.5-flash-image"
      image := base64Image
      mimeType := mimeType
      prompt := extractPromptText layer.boundingBox layer.description }
  (match remote req with
   | ExtractCall.failed => Except.error genericExtractError
   | ExtractCall.ok [] => Except.error genericExtractError
   | ExtractCall.ok (c :: _) =>
     match findInline c.content.parts with
     | some d => Except.ok d
     | none => Except.error genericExtractError,
   [req])

/-- One whole client invocation as the caller sees it: the source function
body contains no assignment to the layer record, so the caller's layer
after the call is the layer passed in, whether the call succeeded or
failed. -/
def extractClientInvoke (remote : ExtractRequest → ExtractCall (List Candidate))
    (base64Image mimeType : String) (layer : Layer) :
    (Except String String × List ExtractRequest) × Layer :=
  (extractImageLayer remote base64Image mimeType layer, layer)

/-!
Concrete inputs used by witnesses and counterexamples.
-/

/-- A 2 by 2 decoded original image. -/
def baseW : DecodedImage :=
  ⟨2, 2, [⟨1, 2, 3, 4⟩, ⟨5, 6, 7, 8⟩, ⟨9, 10, 11, 12⟩, ⟨13, 14, 15, 16⟩]⟩

/-- A decode oracle that decodes only the source URL "img". -/
def decodeW : String → Option DecodedImage := fun s => if s = "img" then some baseW else none

/-- A shape layer with no extraction. -/
def layerShapeW : Layer := ⟨"Sky", "blue band", LayerType.shape, ⟨0, 0, 1, 3 / 10⟩, none⟩

/-- A text layer with no extraction. -/
def layerTextW : Layer := ⟨"Title", "hello, #FFFFFF", LayerType.text, ⟨0, 0, 1 / 2, 1 / 2⟩, none⟩

/-- An image layer whose cached extraction does not decode under `decodeW`. -/
def layerBadCut : Layer := ⟨"pic", "a photo", LayerType.image, ⟨0, 0, 1, 1⟩, some "missing"⟩

/-- A 200 by 200 decoded original image (pixel payload irrelevant here). -/
def base200 : DecodedImage := ⟨200, 200, []⟩

/-- A 40 by 40 decoded extraction cutout. -/
def ext40 : DecodedImage := ⟨40, 40, []⟩

/-- An image layer with a cached extraction named "cut" at normalized origin
(0.5, 0.5). -/
def layerCut : Layer := ⟨"Main", "a red car", LayerType.image, ⟨1 / 2, 1 / 2, 1 / 4, 1 / 4⟩, some "cut"⟩

/-- A decode oracle decoding the main image and the cached cutout. -/
def decodeCut : String → Option DecodedImage := fun s =>
  if s = "data:image/png;base64,cut" then some ext40
  else if s = "main" then some base200 else none

/-- A JSON.parse stub recognizing one fixed response text whose single
element is an empty object (all four required fields missing). -/
def parseStub : String → Option Json := fun s =>
  if s = "[bad]" then some (Json.arr [Json.obj []]) else none

/-- A JSON.parse stub recognizing one fixed response text that parses to a
well-formed empty array. -/
def parseEmptyArr : String → Option Json := fun s =>
  if s = "[]" then some (Json.arr []) else none

/-- A layer handed to the extraction client in counterexamples. -/
def layerAny : Layer := ⟨"L", "desc", LayerType.image, ⟨0, 0, 1, 1⟩, none⟩

/-- A response candidate whose only part carries text but no inline image
data. -/
def candNoImage : Candidate := ⟨⟨[⟨some "hello", none⟩]⟩⟩

/-- A response candidate whose second part carries inline image data. -/
def candWithImage : Candidate := ⟨⟨[⟨some "t", none⟩, ⟨none, some ⟨"image/png", "DATA"⟩⟩]⟩⟩

/-- A bounding box used by the round-trip witness. -/
def bbW : BoundingBox := ⟨0, 0, 1, 1⟩

/-!
Helper lemmas shared by the claim theorems.
-/

/-- Indexing a flattened list of equal-length rows. -/
theorem flatten_grid_get {α : Type} (w : ℕ) :
    ∀ (rows : List (List α)) (i px : ℕ), (∀ r ∈ rows, r.length = w) → px < w →
      rows.flatten[i * w + px]? = rows[i]?.bind (fun r => r[px]?)
  | [], i, px, _, _ => by simp
  | r :: rest, 0, px, hw, hpx => by
    have hr : r.length = w := hw r (List.mem_cons_self r rest)
    simp only [List.flatten_cons, Nat.zero_mul, Nat.zero_add, List.getElem?_cons_zero]
    rw [List.getElem?_append_left (by omega)]
    rfl
  | r :: rest, (j+1), px, hw, hpx => by
    have hr : r.length = w := hw r (List.mem_cons_self r rest)
    have hge : r.length ≤ (j+1) * w + px := by
      have : w ≤ (j+1) * w := Nat.le_mul_of_pos_left w (Nat.succ_pos j)
      omega
    simp only [List.flatten_cons]
    rw [List.getElem?_append_right hge]
    have harith : (j+1) * w + px - r.length = j * w + px := by
      rw [hr]; rw [Nat.succ_mul]; omega
    rw [harith]
    have := flatten_grid_get w rest j px (fun x hx => hw x (List.mem_cons_of_mem r hx)) hpx
    rw [this, List.getElem?_cons_succ]

/-- Reading one pixel out of a row-major grid built from a pixel function. -/
theorem grid_pixel {α : Type} (f : ℕ → ℕ → α) (w h px py : ℕ) (hpx : px < w) (hpy : py < h) :
    ((List.range h).map (fun py => (List.range w).map (fun px => f px py))).flatten[py * w + px]? =
      some (f px py) := by
  rw [flatten_grid_get w _ py px (by
    intro r hr
    simp only [List.mem_map] at hr
    obtain ⟨y, _, rfl⟩ := hr
    simp) hpx]
  simp [List.getElem?_range, hpx, hpy]

/-- One pixel of the synthesized guide buffer. -/
theorem guideImageData_get (t : LayerType) (bb : BoundingBox) (w h px py : ℕ)
    (hpx : px < w) (hpy : py < h) :
    (guideImageData t bb w h)[py * w + px]? = some (guidePixel t bb w h px py) :=
  grid_pixel (guidePixel t bb w h) w h px py hpx hpy

/-- The per-layer loop emits exactly one document layer per input layer. -/
theorem processAll_length (f : Layer → Option PsdLayer) :
    ∀ (layers : List Layer) (outs : List PsdLayer),
      processAll f layers = some outs → outs.length = layers.length
  | [], outs, h => by
    simp only [processAll, Option.some.injEq] at h
    subst h; rfl
  | l :: rest, outs, h => by
    simp only [processAll] at h
    cases hf : f l with
    | none => simp [hf] at h
    | some p =>
      cases hr : processAll f rest with
      | none => simp [hf, hr] at h
      | some ps =>
        simp only [hf, hr, Option.some.injEq] at h
        subst h
        simp [processAll_length f rest ps hr]

/-- A failing layer anywhere in the list aborts the whole loop. -/
theorem processAll_none (f : Layer → Option PsdLayer) :
    ∀ (layers : List Layer) (l : Layer), l ∈ layers → f l = none →
      processAll f layers = none
  | [], l, hmem, _ => absurd hmem (List.not_mem_nil l)
  | x :: rest, l, hmem, hf => by
    simp only [processAll]
    rcases List.mem_cons.mp hmem with h | h
    · subst h; rw [hf]
    · rw [processAll_none f rest l h hf]
      cases f x <;> rfl

/-- De Morgan for the four-way validation disjunction. -/
theorem bool_demorgan4 (a b c d : Bool) : (!a || !b || !c || !d) = !(a && b && c && d) := by
  cases a <;> cases b <;> cases c <;> cases d <;> rfl

/-- On a non-null element, missing-required is the negation of
has-required. -/
theorem itemMissing_eq (it : Json) (h : it ≠ Json.null) :
    itemMissingRequired it = !itemHasRequired it := by
  cases it
  case null => exact absurd rfl h
  all_goals exact bool_demorgan4 _ _ _ _

/-- The element scan on a non-null head reduces to a test of
`itemHasRequired`. -/
theorem checkItems_cons_eq (item : Json) (rest : List Json) (hnn : item ≠ Json.null) :
    checkItems (item :: rest) =
      if itemHasRequired item = true then checkItems rest else Except.ok true := by
  cases item
  case null => exact absurd rfl hnn
  all_goals
    simp only [checkItems]
  all_goals
    rw [itemMissing_eq _ (by simp)]
  all_goals
    split <;> simp_all

/-- The scan returns `ok false` (no invalid element) exactly when every
element passes `itemHasRequired`. -/
theorem checkItems_ok_false_iff : ∀ items : List Json,
    checkItems items = Except.ok false ↔ items.all itemHasRequired = true
  | [] => by simp [checkItems]
  | item :: rest => by
    by_cases hnn : item = Json.null
    · subst hnn
      simp [checkItems, itemHasRequired]
    · rw [checkItems_cons_eq item rest hnn]
      by_cases hreq : itemHasRequired item = true
      · simp [hreq, checkItems_ok_false_iff rest]
      · rw [Bool.not_eq_true] at hreq
        simp [hreq]

/-- Reduction of the decomposition client on a successfully parsed
response text. -/
theorem analyze_ok_parse (parse : String → Option Json) (txt : String) (j : Json)
    (hne : txt ≠ "") (hp : parse txt = some j) :
    analyzeImageForLayers parse (AnalyzeCall.ok (some txt)) = analyzeParsed j := by
  simp only [analyzeImageForLayers, if_neg hne, hp]

/-- Rounding to the nearest integer moves a rational by at most one half. -/
theorem jsRound_abs (q : ℚ) : |((jsRound q : ℤ) : ℚ) - q| ≤ 1 / 2 := by
  rw [abs_le]
  have h1 : ((⌊q + 1/2⌋ : ℤ) : ℚ) ≤ q + 1/2 := Int.floor_le _
  have h2 : q + 1/2 - 1 < ((⌊q + 1/2⌋ : ℤ) : ℚ) := Int.sub_one_lt_floor _
  unfold jsRound
  constructor <;> linarith

/-- Converting one normalized coordinate to absolute pixels and back
recovers it within half a pixel of tolerance. -/
theorem roundtrip_coord (v : ℚ) (d : ℕ) (hd : 0 < d) :
    |((jsRound (v * d) : ℤ) : ℚ) / d - v| ≤ 1 / (2 * d) := by
  have hd2 : (0 : ℚ) < d := by exact_mod_cast hd
  have key := jsRound_abs (v * d)
  have heq : ((jsRound (v * d) : ℤ) : ℚ) / d - v = (((jsRound (v * d) : ℤ) : ℚ) - v * d) / d := by
    field_simp
    ring
  rw [heq, abs_div, abs_of_pos hd2]
  rw [div_le_div_iff₀ hd2 (by positivity)]
  calc |((jsRound (v * d) : ℤ) : ℚ) - v * d| * (2 * d)
      ≤ (1 / 2) * (2 * d) := by
        exact mul_le_mul_of_nonneg_right key (by positivity)
    _ = 1 * d := by ring

/-!
Claim theorems.
-/

/-- C1: for every non-empty input layer array, when no decode errors occur
(the original image decodes to `base` and the per-layer loop yields `outs`),
the document-layer list `exportToPsd` serializes is exactly the reverse of
(original-image layer first, then one output layer per input layer in input
order); in particular the output layer count is 1 + input layer count, and
the foreground-most (last-built) layer comes first. -/
theorem c1_assembler_reversed_order (decode : String → Option DecodedImage)
    (imageUrl : String) (layers : List Layer) (base : DecodedImage) (outs : List PsdLayer)
    (hne : layers ≠ [])
    (hbase : decode imageUrl = some base)
    (houts : processAll (processLayer decode base.width base.height) layers = some outs) :
    exportToPsd decode imageUrl layers =
      some (writePsd base.width base.height (List.reverse (originalLayer base :: outs))) ∧
    (List.reverse (originalLayer base :: outs)).length = 1 + layers.length := by
  constructor
  · simp only [exportToPsd, hbase, houts]
  · rw [List.length_reverse, List.length_cons, processAll_length _ layers outs houts]
    omega

/-- Witness for C1 at a concrete non-empty input: one shape layer on a 2 by 2
canvas. -/
theorem c1_witness :
    ([layerShapeW] ≠ ([] : List Layer) ∧
      decodeW "img" = some baseW ∧
      processAll (processLayer decodeW baseW.width baseW.height) [layerShapeW] =
        some [guideLayer 2 2 layerShapeW]) ∧
    exportToPsd decodeW "img" [layerShapeW] =
      some (writePsd baseW.width baseW.height
        (List.reverse (originalLayer baseW :: [guideLayer 2 2 layerShapeW]))) ∧
    (List.reverse (originalLayer baseW :: [guideLayer 2 2 layerShapeW])).length =
      1 + [layerShapeW].length :=
  ⟨⟨by simp, rfl, rfl⟩,
    c1_assembler_reversed_order decodeW "img" [layerShapeW] baseW [guideLayer 2 2 layerShapeW]
      (by simp) rfl rfl⟩

/-- C10 (implicit): for an empty input layer array, assembly still succeeds
when the original image decodes, and the document contains exactly one
layer: the full-canvas original-image layer at offset (0,0), full opacity. -/
theorem c10_empty_input (decode : String → Option DecodedImage) (imageUrl : String)
    (base : DecodedImage) (hbase : decode imageUrl = some base) :
    exportToPsd decode imageUrl [] = some (writePsd base.width base.height [originalLayer base]) ∧
    [originalLayer base].length = 1 ∧
    (originalLayer base).left = 0 ∧ (originalLayer base).top = 0 ∧
    (originalLayer base).right = (base.width : ℤ) ∧
    (originalLayer base).bottom = (base.height : ℤ) ∧
    effOpacity (originalLayer base).opacity = 1 := by
  refine ⟨?_, rfl, rfl, rfl, rfl, rfl, rfl⟩
  simp only [exportToPsd, hbase, processAll]
  rfl

/-- Witness for C10: the 2 by 2 original with no layers. -/
theorem c10_witness :
    decodeW "img" = some baseW ∧
    exportToPsd decodeW "img" [] = some (writePsd baseW.width baseW.height [originalLayer baseW]) :=
  ⟨rfl, (c10_empty_input decodeW "img" baseW rfl).1⟩

/-- C5 counterexample: with one image layer whose cached extraction fails to
decode and one ordinary shape layer after it, the whole export fails
(`none`): no per-layer guide fallback happens and the remaining layer is
not emitted, contradicting the claim. -/
theorem c5_counterexample :
    exportToPsd decodeW "img" [layerBadCut, layerShapeW] = none := by
  rfl

/-- C5 as amended: if decoding one layer's cached extraction pixel buffer
fails during assembly, the whole-document assembly fails (no document is
produced); there is no fallback to guide rendering for that layer and no
remaining layers are emitted. -/
theorem c5_amended_whole_export_fails (decode : String → Option DecodedImage)
    (imageUrl : String) (layers : List Layer) (l : Layer) (b64 : String)
    (hmem : l ∈ layers) (ht : l.type = LayerType.image)
    (he : l.extractedImage = some b64) (hb : b64 ≠ "")
    (hfail : decode ("data:image/png;base64," ++ b64) = none) :
    exportToPsd decode imageUrl layers = none := by
  unfold exportToPsd
  cases hbase : decode imageUrl with
  | none => rfl
  | some base =>
    have hnone : processLayer decode base.width base.height l = none := by
      obtain ⟨n, d, t, bb, e⟩ := l
      simp only at ht he
      subst ht
      subst he
      simp [processLayer, loadImageDataFromBase64, hb, hfail]
    simp only [processAll_none (processLayer decode base.width base.height) layers l hmem hnone]

/-- Witness for C5's amended statement at a concrete input. -/
theorem c5_witness :
    (layerBadCut ∈ [layerBadCut] ∧ layerBadCut.type = LayerType.image ∧
      layerBadCut.extractedImage = some "missing" ∧ "missing" ≠ "" ∧
      decodeW ("data:image/png;base64," ++ "missing") = none) ∧
    exportToPsd decodeW "img" [layerBadCut] = none :=
  ⟨⟨List.mem_singleton.mpr rfl, rfl, rfl, by decide, rfl⟩,
    c5_amended_whole_export_fails decodeW "img" [layerBadCut] layerBadCut "missing"
      (List.mem_singleton.mpr rfl) rfl rfl (by decide) rfl⟩

/-- C2: for every layer that is not an `image` layer with a (truthy) cached
extraction, the assembler produces the full-canvas guide layer: its pixel
buffer is the bounding box converted to absolute pixel coordinates and
filled with the fixed category color (image green, shape yellow, text red,
all at alpha 100), its opacity 0.7 is below full, and its name carries the
upper-cased category tag prefix; the result never consults the decode
oracle (no auto-extraction during assembly). -/
theorem c2_guide_layer (decode decode2 : String → Option DecodedImage) (w h : ℕ) (l : Layer)
    (hng : ¬ (l.type = LayerType.image ∧ isCached l.extractedImage = true)) :
    processLayer decode w h l = some (guideLayer w h l) ∧
    processLayer decode w h l = processLayer decode2 w h l ∧
    (guideLayer w h l).name = "[" ++ upperTypeString l.type ++ "] " ++ l.name ∧
    (l.type = LayerType.image → (guideLayer w h l).name = "[IMAGE] " ++ l.name) ∧
    (l.type = LayerType.shape → (guideLayer w h l).name = "[SHAPE] " ++ l.name) ∧
    (l.type = LayerType.text → (guideLayer w h l).name = "[TEXT] " ++ l.name) ∧
    (guideLayer w h l).left = 0 ∧ (guideLayer w h l).top = 0 ∧
    (guideLayer w h l).right = (w : ℤ) ∧ (guideLayer w h l).bottom = (h : ℤ) ∧
    (guideLayer w h l).opacity = some (7 / 10) ∧
    effOpacity (guideLayer w h l).opacity < 1 ∧
    typeToRgba LayerType.image = ⟨74, 222, 128, 100⟩ ∧
    typeToRgba LayerType.shape = ⟨250, 204, 21, 100⟩ ∧
    typeToRgba LayerType.text = ⟨248, 113, 113, 100⟩ ∧
    ∀ px py : ℕ, px < w → py < h →
      (guideLayer w h l).imageData[py * w + px]? =
        some (if inRect (jsRound (l.boundingBox.x * w)) (jsRound (l.boundingBox.y * h))
                  (jsRound (l.boundingBox.width * w)) (jsRound (l.boundingBox.height * h)) px py
              then typeToRgba l.type else clearPixel) := by
  have hmain : ∀ dec : String → Option DecodedImage, processLayer dec w h l = some (guideLayer w h l) := by
    intro dec
    obtain ⟨n, d, t, bb, e⟩ := l
    cases t <;> cases e <;> simp_all [processLayer, isCached]
  refine ⟨hmain decode, (hmain decode).trans (hmain decode2).symm, rfl, ?_, ?_, ?_,
    rfl, rfl, rfl, rfl, rfl, by norm_num [guideLayer, effOpacity], rfl, rfl, rfl, ?_⟩
  · intro ht
    obtain ⟨n, d, t, bb, e⟩ := l
    simp only at ht
    subst ht
    rfl
  · intro ht
    obtain ⟨n, d, t, bb, e⟩ := l
    simp only at ht
    subst ht
    rfl
  · intro ht
    obtain ⟨n, d, t, bb, e⟩ := l
    simp only at ht
    subst ht
    rfl
  · intro px py hpx hpy
    have : (guideLayer w h l).imageData = guideImageData l.type l.boundingBox w h := rfl
    rw [this, guideImageData_get l.type l.boundingBox w h px py hpx hpy]
    rfl

/-- Witness for C2: a text layer with no extraction on the 2 by 2 canvas. -/
theorem c2_witness :
    ¬ (layerTextW.type = LayerType.image ∧ isCached layerTextW.extractedImage = true) ∧
    processLayer decodeW 2 2 layerTextW = some (guideLayer 2 2 layerTextW) :=
  ⟨by decide, (c2_guide_layer decodeW decodeW 2 2 layerTextW (by decide)).1⟩

/-- C3: for every `image` layer with a (truthy) cached extraction that
decodes, the assembler places the cutout at absolute origin
(round(x times canvas width), round(y times canvas height)) and sizes it to
the extraction buffer's own intrinsic dimensions (right = left + intrinsic
width, bottom = top + intrinsic height), with no opacity field, i.e. full
effective opacity. -/
theorem c3_extracted_placement (decode : String → Option DecodedImage) (w h : ℕ)
    (l : Layer) (b64 : String) (ext : DecodedImage)
    (ht : l.type = LayerType.image) (he : l.extractedImage = some b64) (hb : b64 ≠ "")
    (hd : decode ("data:image/png;base64," ++ b64) = some ext) :
    processLayer decode w h l =
      some { name := "[Extracted] " ++ l.name
             imageData := ext.data
             left := jsRound (l.boundingBox.x * w)
             top := jsRound (l.boundingBox.y * h)
             right := jsRound (l.boundingBox.x * w) + (ext.width : ℤ)
             bottom := jsRound (l.boundingBox.y * h) + (ext.height : ℤ)
             opacity := none } ∧
    effOpacity none = 1 ∧
    processLayer decodeCut 200 200 layerCut =
      some { name := "[Extracted] Main", imageData := ext40.data, left := 100, top := 100,
             right := 140, bottom := 140, opacity := none } := by
  refine ⟨?_, rfl, ?_⟩
  · obtain ⟨n, d, t, bb, e⟩ := l
    simp only at ht he
    subst ht
    subst he
    simp [processLayer, loadImageDataFromBase64, hb, hd, extractedLayerOf]
  · have hconc : processLayer decodeCut 200 200 layerCut =
        some (extractedLayerOf layerCut ext40 200 200) := rfl
    rw [hconc]
    simp only [extractedLayerOf, Option.some.injEq, PsdLayer.mk.injEq]
    norm_num [jsRound, layerCut, ext40]
    rfl

/-- Witness for C3, the end-to-end scenario of the claim: a 40 by 40 cutout
with bounding-box origin (0.5, 0.5) on a 200 by 200 canvas lands at
(100, 100) sized 40 by 40 (right 140, bottom 140), not at the bounding
box's own width. -/
theorem c3_witness :
    (layerCut.type = LayerType.image ∧ layerCut.extractedImage = some "cut" ∧
      "cut" ≠ "" ∧ decodeCut ("data:image/png;base64," ++ "cut") = some ext40) ∧
    processLayer decodeCut 200 200 layerCut =
      some { name := "[Extracted] Main", imageData := ext40.data, left := 100, top := 100,
             right := 140, bottom := 140, opacity := none } :=
  ⟨⟨rfl, rfl, by decide, rfl⟩,
    (c3_extracted_placement decodeCut 200 200 layerCut "cut" ext40 rfl rfl
      (by decide) rfl).2.2⟩

/-- C8: for every valid normalized bounding box and positive canvas
dimensions, converting each coordinate to absolute pixels the way the
assembler does (multiply by the dimension, `Math.round`) and dividing back
by the same dimension recovers the original normalized value to within
1 / (2 dimension). -/
theorem c8_roundtrip (bb : BoundingBox) (w h : ℕ) (hw : 0 < w) (hh : 0 < h)
    (hx0 : 0 ≤ bb.x) (hx1 : bb.x ≤ 1) (hy0 : 0 ≤ bb.y) (hy1 : bb.y ≤ 1)
    (hw0 : 0 ≤ bb.width) (hw1 : bb.width ≤ 1) (hh0 : 0 ≤ bb.height) (hh1 : bb.height ≤ 1) :
    |((jsRound (bb.x * w) : ℤ) : ℚ) / w - bb.x| ≤ 1 / (2 * w) ∧
    |((jsRound (bb.y * h) : ℤ) : ℚ) / h - bb.y| ≤ 1 / (2 * h) ∧
    |((jsRound (bb.width * w) : ℤ) : ℚ) / w - bb.width| ≤ 1 / (2 * w) ∧
    |((jsRound (bb.height * h) : ℤ) : ℚ) / h - bb.height| ≤ 1 / (2 * h) :=
  ⟨roundtrip_coord bb.x w hw, roundtrip_coord bb.y h hh,
    roundtrip_coord bb.width w hw, roundtrip_coord bb.height h hh⟩

/-- Witness for C8 at the unit bounding box on a 3 by 3 canvas. -/
theorem c8_witness :
    ((0 : ℕ) < 3 ∧ 0 ≤ bbW.x ∧ bbW.x ≤ 1 ∧ 0 ≤ bbW.y ∧ bbW.y ≤ 1 ∧
      0 ≤ bbW.width ∧ bbW.width ≤ 1 ∧ 0 ≤ bbW.height ∧ bbW.height ≤ 1) ∧
    |((jsRound (bbW.x * (3 : ℕ)) : ℤ) : ℚ) / (3 : ℕ) - bbW.x| ≤ 1 / (2 * (3 : ℕ)) :=
  ⟨⟨by decide, le_refl (0 : ℚ), zero_le_one, le_refl (0 : ℚ), zero_le_one,
      zero_le_one, le_refl (1 : ℚ), zero_le_one, le_refl (1 : ℚ)⟩,
    (c8_roundtrip bbW 3 3 (by decide) (by decide) (le_refl (0 : ℚ)) zero_le_one
      (le_refl (0 : ℚ)) zero_le_one zero_le_one (le_refl (1 : ℚ)) zero_le_one
      (le_refl (1 : ℚ))).1⟩

/-- C4 counterexample: the claim's asserted distinctness of failure kinds
does not hold in the code. A response whose single array element is missing
all four required fields and a failed remote call surface to the caller as
the very same error value (the catch-all handler rethrows one generic
error), so the schema-violation failure is not distinct from the
remote-call failure. -/
theorem c4_counterexample :
    analyzeImageForLayers parseStub (AnalyzeCall.ok (some "[bad]")) =
      Except.error "Failed to communicate with the AI model." ∧
    analyzeImageForLayers parseStub AnalyzeCall.failed =
      Except.error "Failed to communicate with the AI model." :=
  ⟨rfl, rfl⟩

/-- C4 as amended: a decomposition response that parses to an array with
some element missing a required field fails the whole call — no layer list
is ever returned — but the error thrown is the same generic error thrown
when the remote call cannot be completed, not a distinct failure kind. -/
theorem c4_amended_schema_failure (parse : String → Option Json) (txt : String)
    (items : List Json) (it : Json)
    (hne : txt ≠ "") (hp : parse txt = some (Json.arr items))
    (hmem : it ∈ items) (hbad : itemHasRequired it = false) :
    analyzeImageForLayers parse (AnalyzeCall.ok (some txt)) = Except.error genericAnalyzeError ∧
    (∀ out : List Json, analyzeImageForLayers parse (AnalyzeCall.ok (some txt)) ≠ Except.ok out) ∧
    analyzeImageForLayers parse AnalyzeCall.failed = Except.error genericAnalyzeError := by
  have hall : items.all itemHasRequired ≠ true := by
    intro hall
    rw [List.all_eq_true] at hall
    have hit := hall it hmem
    rw [hbad] at hit
    exact Bool.false_ne_true hit
  have hchk : checkItems items ≠ Except.ok false := fun hh =>
    hall ((checkItems_ok_false_iff items).mp hh)
  have hmain : analyzeImageForLayers parse (AnalyzeCall.ok (some txt)) =
      Except.error genericAnalyzeError := by
    rw [analyze_ok_parse parse txt (Json.arr items) hne hp]
    show analyzeValidate items = Except.error genericAnalyzeError
    unfold analyzeValidate
    cases hc : checkItems items with
    | error e => rfl
    | ok b =>
      cases b with
      | false => exact absurd hc hchk
      | true => rfl
  exact ⟨hmain, fun out hout => by rw [hmain] at hout; exact Except.noConfusion hout, rfl⟩

/-- Witness for C4's amended statement: the single-element all-fields-missing
response recognized by `parseStub`. -/
theorem c4_witness :
    ("[bad]" ≠ "" ∧ parseStub "[bad]" = some (Json.arr [Json.obj []]) ∧
      Json.obj [] ∈ [Json.obj []] ∧ itemHasRequired (Json.obj []) = false) ∧
    analyzeImageForLayers parseStub (AnalyzeCall.ok (some "[bad]")) =
      Except.error genericAnalyzeError :=
  ⟨⟨by decide, rfl, List.mem_singleton.mpr rfl, rfl⟩,
    (c4_amended_schema_failure parseStub "[bad]" [Json.obj []] (Json.obj [])
      (by decide) rfl (List.mem_singleton.mpr rfl) rfl).1⟩

/-- C9 (implicit): the decomposition validation accepts a parsed response
exactly when it is an array whose every element has truthy name,
description, type and boundingBox fields; hence an element whose type is a
non-empty string outside the enumeration ("banana") or whose boundingBox is
an empty object passes and is returned unchanged, while an empty-string
name or description invalidates the element (and, by the characterization,
fails the whole call, which then yields the generic error). -/
theorem c9_validation_characterization (parse : String → Option Json) (txt : String) (j : Json)
    (hne : txt ≠ "") (hp : parse txt = some j) :
    (∀ out : List Json,
        analyzeImageForLayers parse (AnalyzeCall.ok (some txt)) = Except.ok out ↔
          j = Json.arr out ∧ out.all itemHasRequired = true) ∧
    (analyzeImageForLayers parse (AnalyzeCall.ok (some txt)) = Except.error genericAnalyzeError ∨
      ∃ out : List Json, analyzeImageForLayers parse (AnalyzeCall.ok (some txt)) = Except.ok out) ∧
    itemHasRequired (Json.obj [("name", Json.str "n"), ("description", Json.str "d"),
      ("type", Json.str "banana"), ("boundingBox", Json.obj [])]) = true ∧
    itemHasRequired (Json.obj [("name", Json.str ""), ("description", Json.str "d"),
      ("type", Json.str "image"), ("boundingBox", Json.obj [("x", Json.num 0), ("y", Json.num 0),
        ("width", Json.num 1), ("height", Json.num 1)])]) = false ∧
    itemHasRequired (Json.obj [("name", Json.str "n"), ("description", Json.str ""),
      ("type", Json.str "image"), ("boundingBox", Json.obj [])]) = false := by
  rw [analyze_ok_parse parse txt j hne hp]
  refine ⟨?_, ?_, by decide, by decide, by decide⟩
  · intro out
    cases j with
    | arr items =>
      show analyzeValidate items = Except.ok out ↔ _
      unfold analyzeValidate
      cases hc : checkItems items with
      | error e =>
        simp only [reduceCtorEq, false_iff]
        rintro ⟨harr, hall⟩
        rw [Json.arr.injEq] at harr
        subst harr
        rw [(checkItems_ok_false_iff items).mpr hall] at hc
        exact Except.noConfusion hc
      | ok b =>
        cases b with
        | true =>
          simp only [reduceCtorEq, false_iff]
          rintro ⟨harr, hall⟩
          rw [Json.arr.injEq] at harr
          subst harr
          rw [(checkItems_ok_false_iff items).mpr hall] at hc
          simp at hc
        | false =>
          have hall := (checkItems_ok_false_iff items).mp hc
          simp only [Except.ok.injEq, Json.arr.injEq]
          constructor
          · intro hout
            subst hout
            exact ⟨rfl, hall⟩
          · rintro ⟨harr, _⟩
            subst harr
            rfl
    | null => simp [analyzeParsed]
    | bool b => simp [analyzeParsed]
    | num q => simp [analyzeParsed]
    | str s2 => simp [analyzeParsed]
    | obj fields => simp [analyzeParsed]
  · cases j with
    | arr items =>
      show analyzeValidate items = _ ∨ ∃ out, analyzeValidate items = Except.ok out
      unfold analyzeValidate
      cases hc : checkItems items with
      | error e => exact Or.inl rfl
      | ok b =>
        cases b with
        | true => exact Or.inl rfl
        | false => exact Or.inr ⟨items, rfl⟩
    | null => exact Or.inl rfl
    | bool b => exact Or.inl rfl
    | num q => exact Or.inl rfl
    | str s2 => exact Or.inl rfl
    | obj fields => exact Or.inl rfl

/-- Witness for C9: a response parsing to the empty array is accepted with
the empty layer list. -/
theorem c9_witness :
    ("[]" ≠ "" ∧ parseEmptyArr "[]" = some (Json.arr [])) ∧
    (analyzeImageForLayers parseEmptyArr (AnalyzeCall.ok (some "[]")) =
        Except.ok ([] : List Json) ↔
      Json.arr [] = Json.arr ([] : List Json) ∧ ([] : List Json).all itemHasRequired = true) :=
  ⟨⟨by decide, rfl⟩,
    (c9_validation_characterization parseEmptyArr "[]" (Json.arr []) (by decide) rfl).1 []⟩

/-- C6 counterexample: the claim's asserted distinctness of the
empty-result failure from the remote-call failure does not hold in the
code. A response whose only candidate carries no inline image part and a
failed remote call surface to the caller as the very same error value (the
catch-all handler rethrows one generic error). -/
theorem c6_counterexample :
    (extractImageLayer (fun _ => ExtractCall.ok [candNoImage]) "i" "m" layerAny).1 =
      Except.error "Failed to extract image layer with the AI model." ∧
    (extractImageLayer (fun _ => ExtractCall.failed) "i" "m" layerAny).1 =
      Except.error "Failed to extract image layer with the AI model." :=
  ⟨rfl, rfl⟩

/-- C6 as amended: the extract operation returns the inline binary data of
the first candidate part that carries such data, and fails without
returning any partial result when no part carries one — but that failure
surfaces as the same generic error as a failed remote call, not as a
distinct failure kind. -/
theorem c6_amended_first_inline (img mime : String) (l : Layer) (c : Candidate)
    (cs : List Candidate) (d : String)
    (h : findInline c.content.parts = some d) :
    (extractImageLayer (fun _ => ExtractCall.ok (c :: cs)) img mime l).1 = Except.ok d ∧
    (∀ (p : RespPart) (idata : InlineData) (ps : List RespPart),
        p.inlineData = some idata → findInline (p :: ps) = some idata.data) ∧
    (∀ ps : List RespPart, (∀ p ∈ ps, p.inlineData = none) → findInline ps = none) ∧
    (∀ (c2 : Candidate) (cs2 : List Candidate), findInline c2.content.parts = none →
        (extractImageLayer (fun _ => ExtractCall.ok (c2 :: cs2)) img mime l).1 =
          Except.error genericExtractError) ∧
    (extractImageLayer (fun _ => ExtractCall.failed) img mime l).1 =
      Except.error genericExtractError := by
  refine ⟨?_, ?_, ?_, ?_, rfl⟩
  · simp only [extractImageLayer, h]
  · intro p idata ps hp
    simp only [findInline, hp]
  · intro ps hnone
    induction ps with
    | nil => rfl
    | cons p rest ih =>
      simp only [findInline, hnone p (List.mem_cons_self p rest)]
      exact ih (fun x hx => hnone x (List.mem_cons_of_mem p hx))
  · intro c2 cs2 hn
    simp only [extractImageLayer, hn]

/-- Witness for C6's amended statement: a candidate whose second part
carries the inline payload "DATA". -/
theorem c6_witness :
    findInline candWithImage.content.parts = some "DATA" ∧
    (extractImageLayer (fun _ => ExtractCall.ok [candWithImage]) "i" "m" layerAny).1 =
      Except.ok "DATA" :=
  ⟨rfl,
    (c6_amended_first_inline "i" "m" layerAny candWithImage [] "DATA" rfl).1⟩

/-- C7: the extraction client never mutates the layer record passed to it
(the caller's layer after the invocation is the layer passed in, whether
the call succeeded or failed), it issues exactly one fresh remote request
on every invocation regardless of any cached payload on the layer, and
that request is identical for two layers differing only in their cache
field — caching is entirely the caller's responsibility. -/
theorem c7_no_mutation_fresh_request (remote : ExtractRequest → ExtractCall (List Candidate))
    (img mime : String) (l : Layer) (e : Option String) :
    (extractClientInvoke remote img mime l).2 = l ∧
    (extractImageLayer remote img mime l).2 =
      [{ model := "gemini-2.5-flash-image", image := img, mimeType := mime,
         prompt := extractPromptText l.boundingBox l.description }] ∧
    (extractImageLayer remote img mime { l with extractedImage := e }).2 =
      (extractImageLayer remote img mime l).2 := by
  exact ⟨rfl, rfl, rfl⟩
